import Mathlib

/-
Verification of the deno-webui binding (webui-dev/deno-webui).

Shallow embedding of the runtime logic of `src/webui.ts` and `src/utils.ts`:
the marshalling layer (`toCString` / `fromCString`), the element-binding
trampoline installed by `WebUI.bind`, the `script` / `scriptClient` calls,
the `show` / `showBrowser` connection polling, the `WebUI.wait` liveness
loop, the lazy one-time library initialization, and the buffer arithmetic
of the `setFileHandler` trampoline.

Native entry points (the WebUI C library) are modelled as oracles: records
of functions supplying the values the native side would return, and traces
of the calls the bridge makes back into the native side.

JS strings are modelled as Lean `String` (sequences of Unicode scalar
values); byte buffers as `List Nat` with each element < 256 where relevant.
-/

/-- UTF-8 encoding of a single Unicode scalar value, as produced by the JS
`TextEncoder` used in `utils.ts`. -/
def utf8EncodeChar (c : Char) : List Nat :=
  let n := c.toNat
  if n < 0x80 then [n]
  else if n < 0x800 then [0xC0 + n / 64, 0x80 + n % 64]
  else if n < 0x10000 then [0xE0 + n / 4096, 0x80 + n / 64 % 64, 0x80 + n % 64]
  else [0xF0 + n / 262144, 0x80 + n / 4096 % 64, 0x80 + n / 64 % 64, 0x80 + n % 64]

/-- UTF-8 encoding of a character sequence (JS `TextEncoder.encode`). -/
def utf8Encode (cs : List Char) : List Nat :=
  cs.flatMap utf8EncodeChar

/-- Streaming UTF-8 decoder loop: `need` is the number of continuation
bytes still expected for the current sequence and `acc` the partial scalar
value accumulated so far. A lead byte dispatches on its range; when the
last expected continuation byte arrives the accumulated scalar value is
emitted. Truncated sequences produce U+FFFD (stray continuation or lead
bytes are folded into the current sequence rather than resynchronized —
a simplification of `TextDecoder` irrelevant to well-formed input). -/
def decodeLoop : Nat → Nat → List Nat → List Char
  | need, _, [] => if need = 0 then [] else [Char.ofNat 0xFFFD]
  | need, acc, b :: bs =>
    if need = 0 then
      if b < 0x80 then Char.ofNat b :: decodeLoop 0 0 bs
      else if b < 0xC0 then Char.ofNat 0xFFFD :: decodeLoop 0 0 bs
      else if b < 0xE0 then decodeLoop 1 (b - 0xC0) bs
      else if b < 0xF0 then decodeLoop 2 (b - 0xE0) bs
      else decodeLoop 3 (b - 0xF0) bs
    else if need = 1 then Char.ofNat (acc * 64 + (b - 0x80)) :: decodeLoop 0 0 bs
    else decodeLoop (need - 1) (acc * 64 + (b - 0x80)) bs

/-- UTF-8 decoding of a byte sequence (JS `TextDecoder.decode`). -/
def utf8Decode (bs : List Nat) : List Char :=
  decodeLoop 0 0 bs

/-- Model of `utils.ts` `toCString`: UTF-8 encode the string with a single
appended NUL character (the source appends "\0" and runs `TextEncoder`). -/
def toCString (value : String) : List Nat :=
  utf8Encode (value ++ "\x00").data

/-- JS `Array.prototype.slice(0, end)` end-index arithmetic: a negative end
counts from the end of the array, and the result is clamped to `[0, len]`. -/
def jsSliceEnd (len : Nat) (e : Int) : Nat :=
  (if e < 0 then (len : Int) + e else e).toNat

/-- Model of `utils.ts` `fromCString`: find the first NUL byte with
`findIndex` (which yields `-1` when absent), take `value.slice(0, end)`,
and UTF-8 decode the result. -/
def fromCString (value : List Nat) : String :=
  let fin : Int :=
    match List.findIdx? (fun b => b == 0) value with
    | some i => (i : Nat)
    | none => -1
  String.mk (utf8Decode (value.take (jsSliceEnd value.length fin)))

/-- Model of `Deno.UnsafePointerView.getCString`: read the pointed-to bytes
up to (excluding) the first NUL and UTF-8 decode them. -/
def getCString (bytes : List Nat) : String :=
  String.mk (utf8Decode (bytes.takeWhile (fun b => b != 0)))

/-- A managed `WebUI` window object, identified by its native handle
(`#window` in `webui.ts`). -/
structure WindowObj where
  handle : Nat
deriving DecidableEq

/-- Oracle for the per-event native argument accessors
(`webui_interface_get_int_at` / `_get_string_at` / `_get_bool_at`),
indexed by (window handle, event number, argument index). The string
accessor yields the pointed-to C-string bytes. -/
structure NativeArgs where
  getIntAt : Nat → Nat → Nat → Int
  getStringAt : Nat → Nat → Nat → List Nat
  getBoolAt : Nat → Nat → Nat → Bool

/-- The `arg` accessor record of a `WebUIEvent` (`types.ts`). -/
structure EventArg where
  number : Nat → Int
  string : Nat → String
  boolean : Nat → Bool

/-- A `WebUIEvent` (`types.ts`): the `window` field is the result of the
registry lookup `windows.get(win)`, which in the source is non-null
asserted but may in fact be absent, hence `Option`. -/
structure WEvent where
  window : Option WindowObj
  eventType : Nat
  eventNumber : Nat
  element : String
  arg : EventArg

/-- The `Datatypes` union of `types.ts`: values a bind handler may return. -/
inductive Datatypes
  | str (s : String)
  | num (n : Int)
  | boolean (b : Bool)
deriving DecidableEq

/-- Outcome of invoking the user-supplied bind handler: it completes with a
value (`none` models `undefined` / `void`), or it throws / rejects. -/
inductive HandlerRes
  | ok (v : Option Datatypes)
  | thrown (msg : String)
deriving DecidableEq

/-- A call made by the bridge back into the native library while handling a
bind event. -/
inductive NativeCall
  | setResponse (window : Nat) (eventNumber : Nat) (payload : List Nat)
deriving DecidableEq

/-- JS string coercion of a `Datatypes` value, as applied by
`toCString(result)` via the JS string concatenation with the NUL suffix. -/
def jsToString : Datatypes → String
  | .str s => s
  | .num n => toString n
  | .boolean b => if b then "true" else "false"

/-- The wire string for a handler result: `(await callback(e) as string) ?? ""`
— empty string when the handler returned nothing. -/
def wireResult : Option Datatypes → String
  | none => ""
  | some v => jsToString v

/-- The `WebUIEvent` struct built by the bind trampoline in `webui.ts`
(lines 402-455): element decoded from the C-string pointer (empty when
null), window looked up from the process-wide `windows` registry by the
raw handle, and lazy argument accessors bound to `(handle, eventNumber)`. -/
def mkBindEvent (na : NativeArgs) (registry : Nat → Option WindowObj)
    (pw : Nat) (pet : Nat) (pel : Option (List Nat)) (pen : Nat) : WEvent :=
  { window := registry pw
    eventType := pet
    eventNumber := pen
    element :=
      match pel with
      | some bytes => getCString bytes
      | none => ""
    arg :=
      { number := fun i => na.getIntAt pw pen i
        string := fun i => getCString (na.getStringAt pw pen i)
        boolean := fun i => na.getBoolAt pw pen i } }

/-- The bind trampoline body (`webui.ts` lines 395-466): build the event,
run the user callback, and on normal completion deliver the coerced result
through `webui_interface_set_response` on the bound window (`this.#window`)
keyed by the event number. There is no try/catch: a thrown handler error
escapes the trampoline (second component) and no native call is made. -/
def bindTrampoline (na : NativeArgs) (registry : Nat → Option WindowObj)
    (thisWindow : Nat) (callback : WEvent → HandlerRes)
    (pw pet : Nat) (pel : Option (List Nat)) (pen _pbid : Nat) :
    List NativeCall × Option String :=
  let e := mkBindEvent na registry pw pet pel pen
  match callback e with
  | .ok v => ([NativeCall.setResponse thisWindow pen (toCString (wireResult v))], none)
  | .thrown msg => ([], some msg)

/-- Native calls observable from the `WebUI.wait` loop. -/
inductive WaitCall
  | sleep (ms : Nat)
  | isAppRunning
  | webuiWait
deriving DecidableEq

/-- Model of the `WebUI.wait` loop (`webui.ts` lines 1154-1160): repeatedly
sleep 100 ms then query `webui_interface_is_app_running`, breaking when the
query reports false. The input list supplies the successive query results;
the Bool reports whether the loop broke within the supplied results. The
blocking `webui_wait` entry point is commented out in the source and never
called. -/
def waitLoop : List Bool → List WaitCall × Bool
  | [] => ([], false)
  | q :: rest =>
    if q then
      let r := waitLoop rest
      (WaitCall.sleep 100 :: WaitCall.isAppRunning :: r.1, r.2)
    else ([WaitCall.sleep 100, WaitCall.isAppRunning], true)

/-- `n` sleep-then-poll rounds of the `wait` loop. -/
def pollBlocks : Nat → List WaitCall
  | 0 => []
  | Nat.succ n => WaitCall.sleep 100 :: WaitCall.isAppRunning :: pollBlocks n

/-- The optional `options` argument of `script` / `scriptClient`. -/
structure ScriptOptions where
  timeout : Option Nat
  bufferSize : Option Int

/-- Effective buffer size: `options?.bufferSize !== undefined &&
options.bufferSize > 0 ? options.bufferSize : 1024 * 1000`. -/
def effBufferSize : Option ScriptOptions → Nat
  | some o =>
    match o.bufferSize with
    | some bs => if 0 < bs then bs.toNat else 1024000
    | none => 1024000
  | none => 1024000

/-- Effective timeout: `options?.timeout ?? 0`. -/
def effTimeout : Option ScriptOptions → Nat
  | some o => o.timeout.getD 0
  | none => 0

/-- Oracle for `webui_script` and `webui_interface_script_client`: given the
script, timeout and buffer size (plus the event number for the client
variant), the native call returns its boolean status and the contents of
the response buffer after the call. -/
structure ScriptNative where
  run : String → Nat → Nat → Bool × List Nat
  runClient : Nat → String → Nat → Nat → Bool × List Nat

/-- Model of `WebUI.script` (`webui.ts` lines 252-284): call the native
entry point, decode the buffer with `fromCString`, resolve on true status
and reject on false status — the same decoded buffer either way. -/
def script (na : ScriptNative) (code : String) (options : Option ScriptOptions) :
    Except String String :=
  let bufferSize := effBufferSize options
  let timeout := effTimeout options
  let r := na.run code timeout bufferSize
  let response := fromCString r.2
  if r.1 then Except.ok response else Except.error response

/-- Model of `WebUI.scriptClient` (`webui.ts` lines 302-336): like `script`
but through `webui_interface_script_client`, keyed by `e.eventNumber`. -/
def scriptClient (na : ScriptNative) (e : WEvent) (code : String)
    (options : Option ScriptOptions) : Except String String :=
  let bufferSize := effBufferSize options
  let timeout := effTimeout options
  let r := na.runClient e.eventNumber code timeout bufferSize
  let response := fromCString r.2
  if r.1 then Except.ok response else Except.error response

/-- Outcome of a `show` / `showBrowser` promise. -/
inductive ShowOutcome
  | resolved
  | rejected (msg : String)
deriving DecidableEq

/-- The connection-wait loop of `show` / `showBrowser`: up to `fuel` (120)
iterations, each querying `webui_is_shown` (`q idx` is the result of the
`idx`-th query) and sleeping 250 ms when it is false, breaking when it is
true. Returns the index of the next unconsumed query and the list of sleep
durations performed. -/
def connectLoop (q : Nat → Bool) : Nat → Nat → Nat × List Nat
  | 0, idx => (idx, [])
  | Nat.succ k, idx =>
    if q idx then (idx + 1, [])
    else
      let r := connectLoop q k (idx + 1)
      (r.1, 250 :: r.2)

/-- Model of `WebUI.show` (`webui.ts` lines 102-125): when the window uses a
file handler the status check and the connection wait are skipped entirely;
otherwise a false native status rejects, then the 120-attempt / 250 ms
polling loop runs, and a final `isShown` query decides between resolving
and rejecting with a connection error. Returns the outcome and the sleeps
performed. -/
def showModel (isFileHandler : Bool) (status : Bool) (q : Nat → Bool) :
    ShowOutcome × List Nat :=
  if isFileHandler then (ShowOutcome.resolved, [])
  else if !status then (ShowOutcome.rejected "unable to start the browser", [])
  else
    let r := connectLoop q 120 0
    if !(q r.1) then (ShowOutcome.rejected "unable to connect to the browser", r.2)
    else (ShowOutcome.resolved, r.2)

/-- Model of `WebUI.showBrowser` (`webui.ts` lines 148-172): same as `show`
but with no file-handler carve-out. -/
def showBrowserModel (status : Bool) (q : Nat → Bool) : ShowOutcome × List Nat :=
  if !status then (ShowOutcome.rejected "unable to start the browser", [])
  else
    let r := connectLoop q 120 0
    if !(q r.1) then (ShowOutcome.rejected "unable to connect to the browser", r.2)
    else (ShowOutcome.resolved, r.2)

/-- Calls made by the lazy initialization path `WebUI.init`. -/
inductive InitCall
  | loadLib
  | setConfig (option : Nat) (status : Bool)
deriving DecidableEq

/-- Model of `WebUI.init` (`webui.ts` lines 1059-1066): when the memoized
`_lib` handle is absent, open the library and write the
asynchronous-response configuration (option 5, true); otherwise do nothing.
`fresh` is the handle `loadLib()` would yield. Returns the new memoized
state and the native calls performed. -/
def init (libState : Option Nat) (fresh : Nat) : Option Nat × List InitCall :=
  match libState with
  | none => (some fresh, [InitCall.loadLib, InitCall.setConfig 5 true])
  | some h => (some h, [])

/-- A sequence of `n` window constructions / static calls, each of which
begins by running `WebUI.init` against the current memoized state; the
traces of all runs are concatenated. -/
def runOps (fresh : Nat) : Nat → Option Nat × List InitCall
  | 0 => (none, [])
  | Nat.succ n =>
    let r := runOps fresh n
    let r2 := init r.1 fresh
    (r2.1, r.2 ++ r2.2)

/-- A file-handler response: the user callback returns a string or a byte
array (`string | Uint8Array`). -/
inductive FileResponse
  | str (s : String)
  | bytes (b : List Nat)
deriving DecidableEq

/-- JS `String.prototype.length`: the number of UTF-16 code units (scalar
values above U+FFFF count twice). -/
def jsStrLength (s : String) : Nat :=
  (s.data.map (fun c => if c.toNat < 0x10000 then 1 else 2)).sum

/-- The size requested from `webui_malloc` in the file-handler trampoline
(`webui.ts` line 537): `user_response.length` for either response kind. -/
def fileMallocSize : FileResponse → Nat
  | .str s => jsStrLength s
  | .bytes b => b.length

/-- The number of bytes actually copied into the allocated buffer
(`webui.ts` lines 545-564): for a string, `toCString(user_response)` — the
UTF-8 encoding plus a trailing NUL; for a byte array, its bytes. -/
def fileBytesCopied : FileResponse → Nat
  | .str s => (toCString s).length
  | .bytes b => b.length

/-- The length reported to `webui_interface_set_response_file_handler`
(`webui.ts` line 570): `user_response.length`. -/
def fileReportedLength : FileResponse → Nat
  | .str s => jsStrLength s
  | .bytes b => b.length

/-! Helper lemmas about the marshalling layer. -/

theorem decodeLoop_encodeChar (c : Char) (bs : List Nat) :
    decodeLoop 0 0 (utf8EncodeChar c ++ bs) = c :: decodeLoop 0 0 bs := by
  unfold utf8EncodeChar
  by_cases h1 : c.toNat < 0x80
  · simp only [if_pos h1, List.cons_append, List.nil_append]
    rw [decodeLoop, if_pos rfl, if_pos h1, Char.ofNat_toNat]
  · by_cases h2 : c.toNat < 0x800
    · simp only [if_neg h1, if_pos h2, List.cons_append, List.nil_append]
      rw [decodeLoop, if_pos rfl, if_neg (by omega), if_neg (by omega), if_pos (by omega)]
      rw [decodeLoop, if_neg (by omega), if_pos rfl]
      have h : (0xC0 + c.toNat / 64 - 0xC0) * 64 + (0x80 + c.toNat % 64 - 0x80) = c.toNat := by
        omega
      rw [h, Char.ofNat_toNat]
    · by_cases h3 : c.toNat < 0x10000
      · simp only [if_neg h1, if_neg h2, if_pos h3, List.cons_append, List.nil_append]
        rw [decodeLoop, if_pos rfl, if_neg (by omega), if_neg (by omega), if_neg (by omega),
          if_pos (by omega)]
        rw [decodeLoop, if_neg (by omega), if_neg (by omega)]
        rw [decodeLoop, if_neg (by omega), if_pos rfl]
        have h : ((0xE0 + c.toNat / 4096 - 0xE0) * 64 + (0x80 + c.toNat / 64 % 64 - 0x80)) * 64 +
            (0x80 + c.toNat % 64 - 0x80) = c.toNat := by omega
        rw [h, Char.ofNat_toNat]
      · simp only [if_neg h1, if_neg h2, if_neg h3, List.cons_append, List.nil_append]
        rw [decodeLoop, if_pos rfl, if_neg (by omega), if_neg (by omega), if_neg (by omega),
          if_neg (by omega)]
        rw [decodeLoop, if_neg (by omega), if_neg (by omega)]
        rw [decodeLoop, if_neg (by omega), if_neg (by omega)]
        rw [decodeLoop, if_neg (by omega), if_pos rfl]
        have h : (((0xF0 + c.toNat / 262144 - 0xF0) * 64 + (0x80 + c.toNat / 4096 % 64 - 0x80)) *
            64 + (0x80 + c.toNat / 64 % 64 - 0x80)) * 64 + (0x80 + c.toNat % 64 - 0x80) =
            c.toNat := by omega
        rw [h, Char.ofNat_toNat]

theorem utf8Encode_cons (c : Char) (cs : List Char) :
    utf8Encode (c :: cs) = utf8EncodeChar c ++ utf8Encode cs := by
  simp [utf8Encode]

theorem utf8Encode_append (l1 l2 : List Char) :
    utf8Encode (l1 ++ l2) = utf8Encode l1 ++ utf8Encode l2 := by
  simp [utf8Encode]

theorem utf8Decode_encode_append (cs : List Char) (bs : List Nat) :
    utf8Decode (utf8Encode cs ++ bs) = cs ++ utf8Decode bs := by
  induction cs with
  | nil => simp [utf8Encode]
  | cons c t ih =>
    rw [utf8Encode_cons, List.append_assoc]
    show decodeLoop 0 0 (utf8EncodeChar c ++ (utf8Encode t ++ bs)) = (c :: t) ++ utf8Decode bs
    rw [decodeLoop_encodeChar]
    exact congrArg (c :: ·) ih

theorem utf8Decode_encode (cs : List Char) : utf8Decode (utf8Encode cs) = cs := by
  have h := utf8Decode_encode_append cs []
  simpa [utf8Decode, decodeLoop] using h

theorem char_eq_nul_of_toNat_eq_zero (c : Char) (h : c.toNat = 0) : c = '\x00' := by
  have h2 : Char.ofNat c.toNat = c := Char.ofNat_toNat c
  rw [h] at h2
  exact h2.symm.trans (by decide)

theorem utf8EncodeChar_pos (c : Char) (hc : c ≠ '\x00') : ∀ b ∈ utf8EncodeChar c, b ≠ 0 := by
  have hn : c.toNat ≠ 0 := fun h => hc (char_eq_nul_of_toNat_eq_zero c h)
  intro b hb
  unfold utf8EncodeChar at hb
  by_cases h1 : c.toNat < 0x80
  · rw [if_pos h1] at hb
    simp only [List.mem_singleton] at hb
    omega
  · by_cases h2 : c.toNat < 0x800
    · rw [if_neg h1, if_pos h2] at hb
      simp only [List.mem_cons, List.not_mem_nil, or_false] at hb
      rcases hb with rfl | rfl <;> omega
    · by_cases h3 : c.toNat < 0x10000
      · rw [if_neg h1, if_neg h2, if_pos h3] at hb
        simp only [List.mem_cons, List.not_mem_nil, or_false] at hb
        rcases hb with rfl | rfl | rfl <;> omega
      · rw [if_neg h1, if_neg h2, if_neg h3] at hb
        simp only [List.mem_cons, List.not_mem_nil, or_false] at hb
        rcases hb with rfl | rfl | rfl | rfl <;> omega

theorem utf8Encode_pos (cs : List Char) (h : ∀ c ∈ cs, c ≠ '\x00') :
    ∀ b ∈ utf8Encode cs, b ≠ 0 := by
  intro b hb
  unfold utf8Encode at hb
  rw [List.mem_flatMap] at hb
  obtain ⟨c, hc, hbc⟩ := hb
  exact utf8EncodeChar_pos c (h c hc) b hbc

theorem findIdx?_zero_eq_none (l : List Nat) (h : ∀ x ∈ l, x ≠ 0) :
    ∀ i : Nat, List.findIdx? (fun b => b == 0) l i = none := by
  induction l with
  | nil => intro i; exact List.findIdx?_nil
  | cons a t ih =>
    intro i
    rw [List.findIdx?_cons]
    have ha : (a == 0) = false := by
      have := h a (List.mem_cons_self a t)
      simpa using this
    rw [ha]
    simp only [Bool.false_eq_true, if_false]
    exact ih (fun x hx => h x (List.mem_cons_of_mem a hx)) (i + 1)

theorem findIdx?_zero_append (pre suf : List Nat) (h : ∀ x ∈ pre, x ≠ 0) :
    ∀ i : Nat, List.findIdx? (fun b => b == 0) (pre ++ 0 :: suf) i = some (i + pre.length) := by
  induction pre with
  | nil =>
    intro i
    simp [List.findIdx?_cons]
  | cons a t ih =>
    intro i
    rw [List.cons_append, List.findIdx?_cons]
    have ha : (a == 0) = false := by
      have := h a (List.mem_cons_self a t)
      simpa using this
    rw [ha]
    simp only [Bool.false_eq_true, if_false]
    rw [ih (fun x hx => h x (List.mem_cons_of_mem a hx)) (i + 1)]
    congr 1
    simp [List.length_cons]
    omega

theorem takeWhile_ne_append (pre suf : List Nat) (h : ∀ x ∈ pre, x ≠ 0) :
    List.takeWhile (fun b => b != 0) (pre ++ 0 :: suf) = pre := by
  induction pre with
  | nil => simp [List.takeWhile_cons]
  | cons a t ih =>
    rw [List.cons_append, List.takeWhile_cons]
    have ha : (a != 0) = true := by
      have := h a (List.mem_cons_self a t)
      simpa using this
    rw [ha]
    simp only [if_true]
    rw [ih (fun x hx => h x (List.mem_cons_of_mem a hx))]

theorem fromCString_first_zero (pre suf : List Nat) (h : ∀ x ∈ pre, x ≠ 0) :
    fromCString (pre ++ 0 :: suf) = String.mk (utf8Decode pre) := by
  unfold fromCString
  rw [findIdx?_zero_append pre suf h 0]
  simp only [Nat.zero_add]
  show String.mk (utf8Decode ((pre ++ 0 :: suf).take
      (jsSliceEnd (pre ++ 0 :: suf).length ((pre.length : Nat) : Int)))) =
    String.mk (utf8Decode pre)
  have hslice : jsSliceEnd (pre ++ 0 :: suf).length ((pre.length : Nat) : Int) = pre.length := by
    unfold jsSliceEnd
    rw [if_neg (by omega)]
    simp
  rw [hslice, List.take_left pre (0 :: suf)]

theorem fromCString_all_pos (value : List Nat) (h : ∀ b ∈ value, b ≠ 0) :
    fromCString value = String.mk (utf8Decode value.dropLast) := by
  unfold fromCString
  rw [findIdx?_zero_eq_none value h 0]
  show String.mk (utf8Decode (value.take (jsSliceEnd value.length (-1)))) =
    String.mk (utf8Decode value.dropLast)
  have hslice : jsSliceEnd value.length (-1) = value.length - 1 := by
    unfold jsSliceEnd
    rw [if_pos (by omega)]
    omega
  rw [hslice, ← List.dropLast_eq_take]

theorem exists_split_first_zero (l : List Nat) (h : 0 ∈ l) :
    ∃ suf, l = List.takeWhile (fun b => b != 0) l ++ 0 :: suf ∧
      ∀ x ∈ List.takeWhile (fun b => b != 0) l, x ≠ 0 := by
  induction l with
  | nil => cases h
  | cons a t ih =>
    by_cases ha : a = 0
    · subst ha
      refine ⟨t, ?_, ?_⟩
      · rw [List.takeWhile_cons]
        norm_num
      · intro x hx
        rw [List.takeWhile_cons] at hx
        norm_num at hx
    · have hmem : 0 ∈ t := by
        rcases List.mem_cons.mp h with h0 | h0
        · omega
        · exact h0
      obtain ⟨suf, hsplit, hpos⟩ := ih hmem
      have hab : (a != 0) = true := by simpa using ha
      refine ⟨suf, ?_, ?_⟩
      · rw [List.takeWhile_cons, hab]
        simp only [if_true, List.cons_append]
        exact congrArg (a :: ·) hsplit
      · intro x hx
        rw [List.takeWhile_cons, hab] at hx
        simp only [if_true, List.mem_cons] at hx
        rcases hx with rfl | hx
        · exact ha
        · exact hpos x hx

theorem fromCString_mem_zero (value : List Nat) (h : 0 ∈ value) :
    fromCString value =
      String.mk (utf8Decode (value.takeWhile (fun b => b != 0))) := by
  obtain ⟨suf, hsplit, hpos⟩ := exists_split_first_zero value h
  conv_lhs => rw [hsplit]
  rw [fromCString_first_zero _ suf hpos]

theorem exists_split_first_nul (l : List Char) (h : '\x00' ∈ l) :
    ∃ suf, l = List.takeWhile (fun c => c != '\x00') l ++ '\x00' :: suf ∧
      ∀ c ∈ List.takeWhile (fun c => c != '\x00') l, c ≠ '\x00' := by
  induction l with
  | nil => cases h
  | cons a t ih =>
    by_cases ha : a = '\x00'
    · subst ha
      refine ⟨t, ?_, ?_⟩
      · rw [List.takeWhile_cons]
        norm_num
      · intro x hx
        rw [List.takeWhile_cons] at hx
        norm_num at hx
    · have hmem : '\x00' ∈ t := by
        rcases List.mem_cons.mp h with h0 | h0
        · exact absurd h0.symm ha
        · exact h0
      obtain ⟨suf, hsplit, hpos⟩ := ih hmem
      have hab : (a != '\x00') = true := by simpa using ha
      refine ⟨suf, ?_, ?_⟩
      · rw [List.takeWhile_cons, hab]
        simp only [if_true, List.cons_append]
        exact congrArg (a :: ·) hsplit
      · intro x hx
        rw [List.takeWhile_cons, hab] at hx
        simp only [if_true, List.mem_cons] at hx
        rcases hx with rfl | hx
        · exact ha
        · exact hpos x hx

theorem toCString_eq (s : String) : toCString s = utf8Encode s.data ++ [0] := by
  unfold toCString
  rw [String.data_append]
  rw [show ("\x00" : String).data = ['\x00'] from rfl]
  rw [utf8Encode_append]
  rfl

/-! Claim theorems: marshalling layer (C7, C10). -/

/-- C7: for every string containing no embedded NUL character,
`fromCString (toCString s) = s`; for every string containing an embedded
NUL, the round trip yields exactly the prefix of `s` strictly before the
first NUL — documented truncation, not an error. -/
theorem cstring_roundtrip (s : String) :
    (('\x00' ∉ s.data) → fromCString (toCString s) = s) ∧
    ('\x00' ∈ s.data → fromCString (toCString s) =
      String.mk (s.data.takeWhile (fun c => c != '\x00'))) := by
  constructor
  · intro h
    rw [toCString_eq]
    have hpos : ∀ b ∈ utf8Encode s.data, b ≠ 0 :=
      utf8Encode_pos s.data (fun c hc hEq => h (hEq ▸ hc))
    rw [fromCString_first_zero (utf8Encode s.data) [] hpos, utf8Decode_encode]
  · intro h
    obtain ⟨suf, hsplit, hpos⟩ := exists_split_first_nul s.data h
    rw [toCString_eq]
    conv_lhs => rw [hsplit]
    have hbytes : utf8Encode (List.takeWhile (fun c => c != '\x00') s.data ++ '\x00' :: suf) ++
        [0] = utf8Encode (List.takeWhile (fun c => c != '\x00') s.data) ++
        0 :: (utf8Encode suf ++ [0]) := by
      rw [utf8Encode_append, utf8Encode_cons, show utf8EncodeChar '\x00' = [0] from rfl]
      simp
    have hppos : ∀ b ∈ utf8Encode (s.data.takeWhile (fun c => c != '\x00')), b ≠ 0 :=
      utf8Encode_pos _ hpos
    rw [hbytes, fromCString_first_zero _ _ hppos, utf8Decode_encode]

/-- Witness for C7: the round trip at the NUL-free string "ab" and at the
string "a", NUL, "b", whose decoded prefix is "a". -/
theorem cstring_roundtrip_witness :
    fromCString (toCString "ab") = "ab" ∧
    fromCString (toCString "a\x00b") =
      String.mk (("a\x00b").data.takeWhile (fun c => c != '\x00')) :=
  ⟨(cstring_roundtrip "ab").1 (by decide), (cstring_roundtrip "a\x00b").2 (by decide)⟩

/-- C10: for every byte buffer containing no 0x00 byte at all, the NUL scan
of `fromCString` yields index -1, so the slice excludes the final byte:
the result is the UTF-8 decoding of the buffer with its last byte removed,
not the decoding of the entire buffer. -/
theorem fromCString_without_nul_drops_last_byte (value : List Nat) (h : 0 ∉ value) :
    fromCString value = String.mk (utf8Decode value.dropLast) :=
  fromCString_all_pos value (fun _ hb hEq => h (hEq ▸ hb))

/-- Witness for C10: the NUL-free buffer [104, 105] ("hi") decodes to "h". -/
theorem fromCString_without_nul_witness :
    (0 ∉ ([104, 105] : List Nat)) ∧
    fromCString [104, 105] = String.mk (utf8Decode (([104, 105] : List Nat).dropLast)) :=
  ⟨by decide, fromCString_without_nul_drops_last_byte [104, 105] (by decide)⟩

/-! Claim theorems: element-binding trampoline (C1, C2, C3). -/

/-- C1: on a trampoline invocation the bridge constructs an Event whose
window is the registry entry for the incoming handle, whose eventType is
the event-kind code, whose eventNumber is the correlation id, whose
element is the decoded element-id C-string (empty when the pointer is
null), and whose arg accessors lazily call the per-type native
get-argument-at-index entry points with (handle, correlation id, index);
when the handler completes normally with value v, the bridge makes exactly
one `webui_interface_set_response` call, with the same correlation id and
the string coercion of v (empty string for undefined). -/
theorem bind_dispatch_event_and_response
    (na : NativeArgs) (registry : Nat → Option WindowObj) (thisWindow : Nat)
    (callback : WEvent → HandlerRes) (pw pet : Nat) (pel : Option (List Nat)) (pen pbid : Nat) :
    ((mkBindEvent na registry pw pet pel pen).window = registry pw ∧
      (mkBindEvent na registry pw pet pel pen).eventType = pet ∧
      (mkBindEvent na registry pw pet pel pen).eventNumber = pen ∧
      (mkBindEvent na registry pw pet pel pen).element =
        (match pel with
          | some bytes => getCString bytes
          | none => "") ∧
      (∀ i, (mkBindEvent na registry pw pet pel pen).arg.number i = na.getIntAt pw pen i) ∧
      (∀ i, (mkBindEvent na registry pw pet pel pen).arg.string i =
        getCString (na.getStringAt pw pen i)) ∧
      (∀ i, (mkBindEvent na registry pw pet pel pen).arg.boolean i = na.getBoolAt pw pen i)) ∧
    (∀ v, callback (mkBindEvent na registry pw pet pel pen) = HandlerRes.ok v →
      bindTrampoline na registry thisWindow callback pw pet pel pen pbid =
        ([NativeCall.setResponse thisWindow pen (toCString (wireResult v))], none)) := by
  refine ⟨⟨rfl, rfl, rfl, rfl, fun i => rfl, fun i => rfl, fun i => rfl⟩, ?_⟩
  intro v hv
  simp only [bindTrampoline, hv]

/-- Witness for C1, the bind/respond round-trip scenario: element "sum",
correlation id 7, integer arguments 4 and 6, handler returning their sum
as a string — `set_response` is called once with id 7 and payload "10". -/
theorem bind_dispatch_witness :
    bindTrampoline
      { getIntAt := fun _ _ i => if i = 0 then 4 else 6
        getStringAt := fun _ _ _ => [0]
        getBoolAt := fun _ _ _ => false }
      (fun h => if h = 1 then some ⟨1⟩ else none) 1
      (fun e => HandlerRes.ok (some (Datatypes.str (toString (e.arg.number 0 + e.arg.number 1)))))
      1 4 (some [115, 117, 109, 0]) 7 99 =
      ([NativeCall.setResponse 1 7 (toCString "10")], none) :=
  (bind_dispatch_event_and_response
    { getIntAt := fun _ _ i => if i = 0 then 4 else 6
      getStringAt := fun _ _ _ => [0]
      getBoolAt := fun _ _ _ => false }
    (fun h => if h = 1 then some ⟨1⟩ else none) 1
    (fun e => HandlerRes.ok (some (Datatypes.str (toString (e.arg.number 0 + e.arg.number 1)))))
    1 4 (some [115, 117, 109, 0]) 7 99).2 (some (Datatypes.str "10")) (by decide)

/-- C2, evaluated at the failing input: when the handler throws (here with
message "boom") for correlation id 7, the trampoline makes no
`set_response` call at all — the trace is empty, not a single
empty-payload response — and the error escapes the trampoline as an
unhandled rejection. -/
theorem bind_thrown_handler_sends_no_response :
    bindTrampoline
      { getIntAt := fun _ _ i => if i = 0 then 4 else 6
        getStringAt := fun _ _ _ => [0]
        getBoolAt := fun _ _ _ => false }
      (fun h => if h = 1 then some ⟨1⟩ else none) 1
      (fun _ => HandlerRes.thrown "boom") 1 4 (some [115, 117, 109, 0]) 7 99 =
      ([], some "boom") := rfl

/-- Counterexample for C3: an inbound event whose handle (99) has no
registry entry is not dropped and nothing is logged: the Event is built
with an absent window and the user handler still runs and its response is
still delivered. -/
theorem bind_unknown_handle_still_dispatches :
    (mkBindEvent
      { getIntAt := fun _ _ _ => 0
        getStringAt := fun _ _ _ => [0]
        getBoolAt := fun _ _ _ => false }
      (fun _ => none) 99 4 none 5).window = none ∧
    bindTrampoline
      { getIntAt := fun _ _ _ => 0
        getStringAt := fun _ _ _ => [0]
        getBoolAt := fun _ _ _ => false }
      (fun _ => none) 3 (fun _ => HandlerRes.ok (some (Datatypes.str "ran"))) 99 4 none 5 2 =
      ([NativeCall.setResponse 3 5 (toCString "ran")], none) := ⟨rfl, rfl⟩

/-- C3 as amended: the bridge performs no registry check at all. On a
trampoline invocation whose handle is not registered, the Event is
constructed with an absent (undefined) window field and dispatch proceeds
exactly as for a registered handle: the handler is invoked, a completed
handler still gets its response delivered, and a thrown handler still
escapes — the event is neither logged nor dropped. -/
theorem bind_unknown_handle_no_check
    (na : NativeArgs) (registry : Nat → Option WindowObj) (thisWindow : Nat)
    (callback : WEvent → HandlerRes) (pw pet : Nat) (pel : Option (List Nat)) (pen pbid : Nat)
    (hreg : registry pw = none) :
    (mkBindEvent na registry pw pet pel pen).window = none ∧
    (∀ v, callback (mkBindEvent na registry pw pet pel pen) = HandlerRes.ok v →
      bindTrampoline na registry thisWindow callback pw pet pel pen pbid =
        ([NativeCall.setResponse thisWindow pen (toCString (wireResult v))], none)) ∧
    (∀ msg, callback (mkBindEvent na registry pw pet pel pen) = HandlerRes.thrown msg →
      bindTrampoline na registry thisWindow callback pw pet pel pen pbid = ([], some msg)) := by
  refine ⟨hreg, ?_, ?_⟩
  · intro v hv
    simp only [bindTrampoline, hv]
  · intro msg hm
    simp only [bindTrampoline, hm]

/-- Witness for the amended C3: unregistered handle 42, handler returning
undefined — the response is still delivered with an empty payload. -/
theorem bind_unknown_handle_witness :
    bindTrampoline
      { getIntAt := fun _ _ _ => 0
        getStringAt := fun _ _ _ => [0]
        getBoolAt := fun _ _ _ => false }
      (fun _ => none) 8 (fun _ => HandlerRes.ok none) 42 2 none 11 7 =
      ([NativeCall.setResponse 8 11 (toCString "")], none) :=
  ((bind_unknown_handle_no_check
    { getIntAt := fun _ _ _ => 0
      getStringAt := fun _ _ _ => [0]
      getBoolAt := fun _ _ _ => false }
    (fun _ => none) 8 (fun _ => HandlerRes.ok none) 42 2 none 11 7 rfl).2.1) none rfl

/-! Claim theorems: the wait liveness loop (C4). -/

theorem waitLoop_no_webui_wait : ∀ queries : List Bool,
    WaitCall.webuiWait ∉ (waitLoop queries).1 := by
  intro queries
  induction queries with
  | nil => simp [waitLoop]
  | cons q rest ih =>
    by_cases hq : q = true
    · simp only [waitLoop, hq, if_true]
      intro hmem
      rcases List.mem_cons.mp hmem with h | hmem2
      · cases h
      · rcases List.mem_cons.mp hmem2 with h | hmem3
        · cases h
        · exact ih hmem3
    · simp only [waitLoop, hq, if_false]
      intro hmem
      rcases List.mem_cons.mp hmem with h | hmem2
      · cases h
      · rcases List.mem_cons.mp hmem2 with h | hmem3
        · cases h
        · cases hmem3

theorem waitLoop_breaks_iff : ∀ queries : List Bool,
    (waitLoop queries).2 = true ↔ false ∈ queries := by
  intro queries
  induction queries with
  | nil => simp [waitLoop]
  | cons q rest ih =>
    by_cases hq : q = true
    · subst hq
      simp only [waitLoop, if_true, List.mem_cons]
      rw [ih]
      constructor
      · exact fun h => Or.inr h
      · rintro (h | h)
        · cases h
        · exact h
    · have hq2 : q = false := by
        cases q
        · rfl
        · exact absurd rfl hq
      subst hq2
      simp [waitLoop]

theorem waitLoop_first_false : ∀ (pre suf : List Bool), (∀ b ∈ pre, b = true) →
    waitLoop (pre ++ false :: suf) = (pollBlocks (pre.length + 1), true) := by
  intro pre
  induction pre with
  | nil => intro suf _; simp [waitLoop, pollBlocks]
  | cons b t ih =>
    intro suf h
    have hb : b = true := h b (List.mem_cons_self b t)
    subst hb
    rw [List.cons_append]
    simp only [waitLoop, if_true]
    rw [ih suf (fun x hx => h x (List.mem_cons_of_mem true hx))]
    simp [pollBlocks, List.length_cons]

/-- C4: `WebUI.wait` never calls the blocking `webui_wait` entry point; it
repeats sleep-100-ms-then-poll rounds of `webui_interface_is_app_running`
and breaks as soon as a poll reports false — it terminates exactly when
some poll answers false, and when the very first poll answers false (zero
windows ever shown) it returns after a single 100 ms sleep. -/
theorem wait_polls_until_not_running (queries : List Bool) :
    (WaitCall.webuiWait ∉ (waitLoop queries).1) ∧
    ((waitLoop queries).2 = true ↔ false ∈ queries) ∧
    (∀ pre suf, queries = pre ++ false :: suf → (∀ b ∈ pre, b = true) →
      waitLoop queries = (pollBlocks (pre.length + 1), true)) := by
  refine ⟨waitLoop_no_webui_wait queries, waitLoop_breaks_iff queries, ?_⟩
  intro pre suf hq hpre
  rw [hq]
  exact waitLoop_first_false pre suf hpre

/-- Witness for C4: with the very first liveness poll reporting false, the
loop performs exactly one sleep-poll round and breaks. -/
theorem wait_polls_witness :
    waitLoop [false] = (pollBlocks 1, true) ∧
    WaitCall.webuiWait ∉ (waitLoop [false]).1 :=
  ⟨(wait_polls_until_not_running [false]).2.2 [] [] rfl (by intro b hb; cases hb),
    (wait_polls_until_not_running [false]).1⟩

/-! Claim theorems: script calls (C5). -/

/-- C5: `script` and `scriptClient` resolve exactly when the native call
returns true and reject exactly when it returns false, and in both cases
the carried value is the response buffer decoded by `fromCString` — when
the buffer contains a NUL this is exactly the decoding of the bytes before
its first NUL, so a failing caller receives whatever partial or diagnostic
content the native layer wrote. -/
theorem script_status_resolves_rejects (na : ScriptNative) (e : WEvent) (code : String)
    (options : Option ScriptOptions) :
    (script na code options =
        Except.ok (fromCString (na.run code (effTimeout options) (effBufferSize options)).2) ↔
      (na.run code (effTimeout options) (effBufferSize options)).1 = true) ∧
    (script na code options =
        Except.error (fromCString (na.run code (effTimeout options) (effBufferSize options)).2) ↔
      (na.run code (effTimeout options) (effBufferSize options)).1 = false) ∧
    (scriptClient na e code options =
        Except.ok (fromCString
          (na.runClient e.eventNumber code (effTimeout options) (effBufferSize options)).2) ↔
      (na.runClient e.eventNumber code (effTimeout options) (effBufferSize options)).1 = true) ∧
    (scriptClient na e code options =
        Except.error (fromCString
          (na.runClient e.eventNumber code (effTimeout options) (effBufferSize options)).2) ↔
      (na.runClient e.eventNumber code (effTimeout options) (effBufferSize options)).1 = false) ∧
    (0 ∈ (na.run code (effTimeout options) (effBufferSize options)).2 →
      fromCString (na.run code (effTimeout options) (effBufferSize options)).2 =
        String.mk (utf8Decode ((na.run code (effTimeout options)
          (effBufferSize options)).2.takeWhile (fun b => b != 0)))) ∧
    (0 ∈ (na.runClient e.eventNumber code (effTimeout options) (effBufferSize options)).2 →
      fromCString (na.runClient e.eventNumber code (effTimeout options) (effBufferSize options)).2 =
        String.mk (utf8Decode ((na.runClient e.eventNumber code (effTimeout options)
          (effBufferSize options)).2.takeWhile (fun b => b != 0)))) := by
  refine ⟨?_, ?_, ?_, ?_, fun h => fromCString_mem_zero _ h, fun h => fromCString_mem_zero _ h⟩
  · by_cases hst : (na.run code (effTimeout options) (effBufferSize options)).1 = true
    · simp [script, hst]
    · simp [script, hst]
  · by_cases hst : (na.run code (effTimeout options) (effBufferSize options)).1 = true
    · simp [script, hst]
    · simp [script, hst]
  · by_cases hst :
        (na.runClient e.eventNumber code (effTimeout options) (effBufferSize options)).1 = true
    · simp [scriptClient, hst]
    · simp [scriptClient, hst]
  · by_cases hst :
        (na.runClient e.eventNumber code (effTimeout options) (effBufferSize options)).1 = true
    · simp [scriptClient, hst]
    · simp [scriptClient, hst]

/-- Witness for C5: a native script call succeeding with buffer "hi",
NUL-terminated, resolves with "hi"; a client script call failing with a
diagnostic buffer "no", NUL-terminated, rejects with the decoded "no". -/
theorem script_status_witness :
    script
      { run := fun _ _ _ => (true, [104, 105, 0])
        runClient := fun _ _ _ _ => (false, [110, 111, 0]) } "x" none =
      Except.ok (fromCString [104, 105, 0]) ∧
    scriptClient
      { run := fun _ _ _ => (true, [104, 105, 0])
        runClient := fun _ _ _ _ => (false, [110, 111, 0]) }
      { window := none, eventType := 0, eventNumber := 7, element := ""
        arg := { number := fun _ => 0, string := fun _ => "", boolean := fun _ => false } }
      "x" none =
      Except.error (fromCString [110, 111, 0]) ∧
    fromCString [104, 105, 0] =
      String.mk (utf8Decode (([104, 105, 0] : List Nat).takeWhile (fun b => b != 0))) :=
  ⟨(script_status_resolves_rejects
      { run := fun _ _ _ => (true, [104, 105, 0])
        runClient := fun _ _ _ _ => (false, [110, 111, 0]) }
      { window := none, eventType := 0, eventNumber := 7, element := ""
        arg := { number := fun _ => 0, string := fun _ => "", boolean := fun _ => false } }
      "x" none).1.mpr rfl,
    (script_status_resolves_rejects
      { run := fun _ _ _ => (true, [104, 105, 0])
        runClient := fun _ _ _ _ => (false, [110, 111, 0]) }
      { window := none, eventType := 0, eventNumber := 7, element := ""
        arg := { number := fun _ => 0, string := fun _ => "", boolean := fun _ => false } }
      "x" none).2.2.2.1.mpr rfl,
    (script_status_resolves_rejects
      { run := fun _ _ _ => (true, [104, 105, 0])
        runClient := fun _ _ _ _ => (false, [110, 111, 0]) }
      { window := none, eventType := 0, eventNumber := 7, element := ""
        arg := { number := fun _ => 0, string := fun _ => "", boolean := fun _ => false } }
      "x" none).2.2.2.2.1 (by decide)⟩

/-! Claim theorems: show and showBrowser (C6). -/

theorem connectLoop_all_false (q : Nat → Bool) (hq : ∀ i, q i = false) :
    ∀ fuel idx, connectLoop q fuel idx = (fuel + idx, List.replicate fuel 250) := by
  intro fuel
  induction fuel with
  | zero => intro idx; simp [connectLoop]
  | succ k ih =>
    intro idx
    simp only [connectLoop, hq idx, Bool.false_eq_true, if_false]
    rw [ih (idx + 1)]
    simp [List.replicate_succ]
    omega

theorem connectLoop_sleeps (q : Nat → Bool) : ∀ fuel idx,
    (connectLoop q fuel idx).2.length ≤ fuel ∧ ∀ d ∈ (connectLoop q fuel idx).2, d = 250 := by
  intro fuel
  induction fuel with
  | zero => intro idx; simp [connectLoop]
  | succ k ih =>
    intro idx
    by_cases hq : q idx = true
    · simp [connectLoop, hq]
    · simp only [connectLoop, hq, Bool.false_eq_true, if_false]
      obtain ⟨hlen, hmem⟩ := ih (idx + 1)
      constructor
      · simp only [List.length_cons]
        omega
      · intro d hd
        rcases List.mem_cons.mp hd with rfl | hd2
        · rfl
        · exact hmem d hd2

theorem connectLoop_first_true (q : Nat → Bool) (k : Nat) (idx : Nat) (hq : q idx = true) :
    connectLoop q (k + 1) idx = (idx + 1, []) := by
  simp [connectLoop, hq]

/-- C6 as amended: a false native show status rejects with "unable to start
the browser" for `showBrowser` always and for `show` only on windows with
no file handler installed — with a file handler installed, `show` skips
both the status check and the connection wait and resolves regardless of
the status. On a true status the bridge polls `webui_is_shown`, sleeping
250 ms after each false poll, at most 120 sleeps (about 30 seconds), and
rejects with "unable to connect to the browser" when the final poll is
still false; the model mutates no window state, so the window can be shown
again. -/
theorem show_status_and_connect_timeout (status : Bool) (q : Nat → Bool) :
    (showModel false false q = (ShowOutcome.rejected "unable to start the browser", [])) ∧
    (showBrowserModel false q = (ShowOutcome.rejected "unable to start the browser", [])) ∧
    (showModel true status q = (ShowOutcome.resolved, [])) ∧
    ((∀ i, q i = false) →
      showModel false true q = (ShowOutcome.rejected "unable to connect to the browser",
        List.replicate 120 250) ∧
      showBrowserModel true q = (ShowOutcome.rejected "unable to connect to the browser",
        List.replicate 120 250)) ∧
    ((showModel false true q).2.length ≤ 120 ∧ ∀ d ∈ (showModel false true q).2, d = 250) ∧
    ((∀ i, q i = true) → showModel false true q = (ShowOutcome.resolved, [])) := by
  refine ⟨rfl, rfl, rfl, ?_, ?_, ?_⟩
  · intro hq
    constructor
    · simp only [showModel, Bool.not_true, Bool.false_eq_true, if_false, if_true]
      rw [connectLoop_all_false q hq 120 0]
      simp [hq]
    · simp only [showBrowserModel, Bool.not_true, Bool.false_eq_true, if_false]
      rw [connectLoop_all_false q hq 120 0]
      simp [hq]
  · have h := connectLoop_sleeps q 120 0
    simp only [showModel, Bool.not_true, Bool.false_eq_true, if_false, if_true]
    by_cases hq : q (connectLoop q 120 0).1 = true
    · simp only [hq, Bool.not_true, Bool.false_eq_true, if_false]
      exact h
    · simp only [Bool.not_eq_true] at hq
      simp only [hq, Bool.not_false, if_true]
      exact h
  · intro hq
    simp only [showModel, Bool.not_true, Bool.false_eq_true, if_false, if_true]
    rw [show (120 : Nat) = 119 + 1 from rfl, connectLoop_first_true q 119 0 (hq 0)]
    simp [hq]

/-- Counterexample for C6: on a window with a file handler installed,
`show` resolves even though the native show call returned false — the
claimed universal rejection on false status does not hold. -/
theorem show_false_status_can_resolve :
    showModel true false (fun _ => false) = (ShowOutcome.resolved, []) := rfl

/-- Witness for the amended C6: a never-connecting window exhausts the 120
sleeps of 250 ms and rejects with the connection error, and a false status
on a plain window rejects with the start error. -/
theorem show_status_witness :
    showModel false true (fun _ => false) =
      (ShowOutcome.rejected "unable to connect to the browser", List.replicate 120 250) ∧
    showModel false false (fun _ => true) =
      (ShowOutcome.rejected "unable to start the browser", []) :=
  ⟨((show_status_and_connect_timeout true (fun _ => false)).2.2.2.1 (fun _ => rfl)).1,
    (show_status_and_connect_timeout false (fun _ => true)).1⟩

/-! Claim theorems: lazy initialization (C8) and the file-handler buffer
arithmetic (C9). -/

/-- C8: across any sequence of n >= 1 window constructions / static calls
in one process, the lazy initialization path opens the native library and
writes the asynchronous-response configuration exactly once — the whole
trace is that single load plus the single option-5 write, performed by the
first operation — and the memoized handle is the one produced then; a
further `init` against the memoized state performs no native call and
returns the same handle. -/
theorem init_loads_library_once (fresh n : Nat) (h : 1 ≤ n) :
    runOps fresh n = (some fresh, [InitCall.loadLib, InitCall.setConfig 5 true]) ∧
    init (some fresh) fresh = (some fresh, []) := by
  constructor
  · induction n with
    | zero => omega
    | succ m ih =>
      by_cases hm : 1 ≤ m
      · have hprev := ih hm
        simp [runOps, hprev, init]
      · have hm0 : m = 0 := by omega
        subst hm0
        rfl
  · rfl

/-- Witness for C8: three successive operations yield exactly one library
load and one configuration write. -/
theorem init_loads_once_witness :
    runOps 7 3 = (some 7, [InitCall.loadLib, InitCall.setConfig 5 true]) :=
  (init_loads_library_once 7 3 (by omega)).1

theorem jsStrLength_le_encode_length : ∀ cs : List Char,
    (cs.map (fun c => if c.toNat < 0x10000 then 1 else 2)).sum ≤ (utf8Encode cs).length := by
  intro cs
  induction cs with
  | nil => simp [utf8Encode]
  | cons c t ih =>
    rw [utf8Encode_cons, List.length_append, List.map_cons, List.sum_cons]
    have hc : (if c.toNat < 0x10000 then 1 else 2) ≤ (utf8EncodeChar c).length := by
      unfold utf8EncodeChar
      by_cases h1 : c.toNat < 0x80
      · simp [h1, show c.toNat < 0x10000 by omega]
      · by_cases h2 : c.toNat < 0x800
        · simp [h1, h2, show c.toNat < 0x10000 by omega]
        · by_cases h3 : c.toNat < 0x10000
          · simp [h1, h2, h3]
          · simp [h1, h2, h3]
    omega

/-- C9 refuted at the failing input and in general: for every string
response the file-handler trampoline copies the UTF-8 encoding plus a
trailing NUL — strictly more bytes than the `user_response.length` it
requested from `webui_malloc` and reports to the native side (at "Hello":
6 bytes copied into a 5-byte allocation); only for byte-array responses
does the copy exactly fit the allocation. -/
theorem file_handler_copy_exceeds_malloc :
    fileMallocSize (FileResponse.str "Hello") = 5 ∧
    fileBytesCopied (FileResponse.str "Hello") = 6 ∧
    fileReportedLength (FileResponse.str "Hello") = 5 ∧
    ¬ fileBytesCopied (FileResponse.str "Hello") ≤ fileMallocSize (FileResponse.str "Hello") ∧
    (∀ s : String, fileMallocSize (FileResponse.str s) < fileBytesCopied (FileResponse.str s)) ∧
    (∀ b : List Nat,
      fileBytesCopied (FileResponse.bytes b) = fileMallocSize (FileResponse.bytes b)) := by
  refine ⟨by decide, by decide, by decide, by decide, ?_, fun b => rfl⟩
  intro s
  show jsStrLength s < (toCString s).length
  have hlen : (toCString s).length = (utf8Encode s.data).length + 1 := by
    rw [toCString_eq, List.length_append]
    rfl
  have hle := jsStrLength_le_encode_length s.data
  unfold jsStrLength
  omega
